import Mathlib

/-!
Verification of the named-reference viewer (src/app.py).

The program extracts named references from a spreadsheet workbook
(extract_named_references), infers textual dependencies between them
(find_dependencies), builds a dependency graph (create_dependency_graph),
and produces a documentation table through a memoized external-service call
(call_openai, generate_ai_outputs, render_markdown_table).

Python strings are modelled as Lean String; Python None-or-string values as
Option String; Python dicts (which preserve insertion order and have unique
keys) as association lists with unique keys; per-destination exceptions as
Except results supplied by the workbook collaborator.
-/

/-- Boolean check that the first character list is an initial segment of the
second, written out so the kernel can evaluate it on literals. -/
def startsWithChars : List Char → List Char → Bool
  | [], _ => true
  | _ :: _, [] => false
  | a :: as, b :: bs => a == b && startsWithChars as bs

/-- Boolean substring check on character lists: does `needle` occur
contiguously inside `hay`?  This models the Python `in` operator on `str`. -/
def hasSubChars (needle : List Char) (hay : List Char) : Bool :=
  match hay with
  | [] => startsWithChars needle []
  | _ :: rest => startsWithChars needle hay || hasSubChars needle rest

/-- Model of Python `str.upper()` (character-wise uppercasing). -/
def pyUpper (s : String) : String := String.mk (s.data.map Char.toUpper)

/-- Model of the Python expression `sub in hay` for strings. -/
def pyContains (hay sub : String) : Bool := hasSubChars sub.data hay.data

/-- Model of Python `str.strip()`: drop whitespace from both ends. -/
def pyStrip (s : String) : String :=
  String.mk (((s.data.dropWhile Char.isWhitespace).reverse.dropWhile
    Char.isWhitespace).reverse)

/-- Model of Python `s.replace("\n", " ")` (the pattern is one character, so
the replacement is character-wise). -/
def pyReplaceNewlines (s : String) : String :=
  String.mk (s.data.map (fun c => if c == '\n' then ' ' else c))

/-- A cell as exposed by the workbook collaborator: its `data_type` tag
(`"f"` marks a formula cell) and its stored `value` text. -/
structure Cell where
  dataType : String
  value : String
deriving DecidableEq, Repr

/-- One extracted named reference: destination sheet, destination address,
and the captured formula text (`none` models Python `None`). -/
structure NamedRef where
  sheet : String
  ref : String
  formula : Option String
deriving DecidableEq, Repr

/-- The `named_refs` dict: insertion-ordered mapping from name to entry. -/
abbrev RefDict := List (String × NamedRef)

/-- A defined name as enumerated by the workbook collaborator: its name, its
definition text (`attr_text`, `none` models Python `None`), its external
flag, and its list of (sheet, address) destinations. -/
structure DefinedName where
  name : String
  attrText : Option String
  isExternal : Bool
  destinations : List (String × String)
deriving DecidableEq, Repr

/-- The workbook collaborator: the defined-name table plus per-destination
cell lookup, `wb[sheet_name]` followed by `sheet[cell_ref]`, which the source
wraps in `try`/`except`; any failure (bad sheet name, malformed address,
missing sheet) is an `Except.error`. -/
structure Workbook where
  definedNames : List DefinedName
  lookupCell : String → String → Except String Cell

/-- Python truthiness of a None-or-string value: `None` and `""` are falsy. -/
def truthyOptStr : Option String → Bool
  | none => false
  | some s => s != ""

/-- Python dict assignment `d[k] = v`: overwrite in place if the key exists
(keeping its position), otherwise append at the end. -/
def dictInsert (k : String) (v : NamedRef) : RefDict → RefDict
  | [] => [(k, v)]
  | (k2, r) :: rest =>
    if k2 == k then (k, v) :: rest else (k2, r) :: dictInsert k v rest

/-- The in-place mutation `named_refs[name]["formula"] = value`. -/
def dictSetFormula (k : String) (v : String) : RefDict → RefDict
  | [] => []
  | (k2, r) :: rest =>
    if k2 == k then (k2, { r with formula := some v }) :: rest
    else (k2, r) :: dictSetFormula k v rest

/-- Model of `ref.split('!')[-1]`: the segment after the last `'!'` (the
whole string when there is none). -/
def cellRefOf (ref : String) : String :=
  String.mk ((ref.data.reverse.takeWhile (fun c => c != '!')).reverse)

/-- Processing of one destination inside `extract_named_references`
(src/app.py lines 31-44): store the entry with `formula = None`, then try to
read the destination cell and, if its type is `"f"`, record its value; any
lookup failure is swallowed and leaves the entry as stored. -/
def processDest (wb : Workbook) (dname : String) (refs : RefDict)
    (dest : String × String) : RefDict :=
  let refs1 := dictInsert dname ⟨dest.1, dest.2, none⟩ refs
  match wb.lookupCell dest.1 (cellRefOf dest.2) with
  | Except.error _ => refs1
  | Except.ok cell =>
    if cell.dataType == "f" then dictSetFormula dname cell.value refs1
    else refs1

/-- The guard `defined_name.attr_text and not defined_name.is_external`. -/
def qualifies (dn : DefinedName) : Bool :=
  truthyOptStr dn.attrText && !dn.isExternal

/-- Processing of one defined name: when it qualifies, fold its destinations
through `processDest`; otherwise skip it. -/
def processName (wb : Workbook) (refs : RefDict) (dn : DefinedName) : RefDict :=
  if qualifies dn then dn.destinations.foldl (processDest wb dn.name) refs
  else refs

/-- Model of `extract_named_references` (src/app.py lines 25-45). -/
def extract_named_references (wb : Workbook) : RefDict :=
  wb.definedNames.foldl (processName wb) []

/-- The net entry one destination produces: sheet and address from the
destination, formula captured exactly when the cell resolves and its type
is `"f"`. -/
def destEntry (wb : Workbook) (dest : String × String) : NamedRef :=
  match wb.lookupCell dest.1 (cellRefOf dest.2) with
  | Except.error _ => ⟨dest.1, dest.2, none⟩
  | Except.ok cell =>
    if cell.dataType == "f" then ⟨dest.1, dest.2, some cell.value⟩
    else ⟨dest.1, dest.2, none⟩

/-- The dependency list computed for one entry of `named_refs` inside
`find_dependencies` (src/app.py lines 51-58): empty when the formula is
`None` or `""`, otherwise the names whose uppercased text occurs inside the
uppercased formula, the entry's own name excluded. -/
def depsFor (named_refs : RefDict) (name : String) (info : NamedRef) :
    List String :=
  match info.formula with
  | none => []
  | some f =>
    if f == "" then []
    else
      (named_refs.map Prod.fst).filter
        (fun other => other != name && pyContains (pyUpper f) (pyUpper other))

/-- Model of `find_dependencies` (src/app.py lines 49-59). -/
def find_dependencies (named_refs : RefDict) : List (String × List String) :=
  named_refs.map (fun p => (p.1, depsFor named_refs p.1 p.2))

/-- A graphviz `Digraph` as the program uses it: the ordered list of `node`
statements and the ordered list of `edge` statements (duplicates kept). -/
structure DotGraph where
  nodes : List String
  edges : List (String × String)
deriving DecidableEq, Repr

/-- Model of `create_dependency_graph` (src/app.py lines 62-69): one node per
key, and for each entry `(ref, deps)` one edge `(dep, ref)` per element of
`deps`, in order. -/
def create_dependency_graph (dependencies : List (String × List String)) :
    DotGraph :=
  { nodes := dependencies.map Prod.fst
    edges := dependencies.flatMap (fun p => p.2.map (fun d => (d, p.1))) }

/-- The external language-model collaborator behind `call_openai`: given the
number of service calls made so far (so successive calls may answer
differently) and the prompt, it returns generated text or raises, which the
source catches as an exception `e`. -/
structure Oracle where
  respond : Nat → String → Except String String

/-- The `st.cache_data` store wrapping `call_openai`: completed results
keyed by the argument pair (prompt, max_tokens), plus the count of service
calls actually performed. -/
structure AIState where
  cache : List ((String × Nat) × String)
  calls : Nat

/-- Model of `call_openai` (src/app.py lines 73-83) together with its
`st.cache_data` decorator: on a cache hit the body is skipped and the stored
result returned; otherwise the service is consulted, a successful reply is
stripped of surrounding whitespace, a failure is converted to the string
`"(Error: ...)"`, and either way the result is cached. -/
def call_openai (oracle : Oracle) (s : AIState) (prompt : String)
    (maxTokens : Nat) : String × AIState :=
  match s.cache.lookup (prompt, maxTokens) with
  | some r => (r, s)
  | none =>
    match oracle.respond s.calls prompt with
    | Except.ok text =>
      (pyStrip text,
        AIState.mk (s.cache ++ [((prompt, maxTokens), pyStrip text)])
          (s.calls + 1))
    | Except.error e =>
      ("(Error: " ++ e ++ ")",
        AIState.mk (s.cache ++ [((prompt, maxTokens), "(Error: " ++ e ++ ")")])
          (s.calls + 1))

/-- The documentation prompt built in `generate_ai_outputs` (line 95). -/
def doc_prompt (f : String) : String :=
  "Explain what the following Excel formula does:\n" ++ f

/-- The translation prompt built in `generate_ai_outputs` (line 96). -/
def py_prompt (f : String) : String :=
  "Translate this Excel formula into a clean, readable Python expression:\n"
    ++ f

/-- The formula translator as the program runs it: one `call_openai`
invocation on the translation prompt with the default token budget. -/
def translate_formula (oracle : Oracle) (s : AIState) (f : String) :
    String × AIState :=
  call_openai oracle s (py_prompt f) 100

/-- One row of the output table.  `excelFormula` is `Option String` because
`info.get("formula", "")` returns the stored value, and the stored value is
Python `None` whenever extraction captured no formula (the key is always
present, so the `""` default is never used). -/
structure OutputRow where
  namedReference : String
  aiDocumentation : String
  excelFormula : Option String
  pythonFormula : String
deriving DecidableEq, Repr

/-- Model of `generate_ai_outputs` (src/app.py lines 87-106): walk the dict
in order, emit the fixed "No formula." row for a falsy (None or empty)
formula, and otherwise one documentation call followed by one translation
call, threading the cache. -/
def generate_ai_outputs (oracle : Oracle) :
    AIState → RefDict → List OutputRow × AIState
  | s, [] => ([], s)
  | s, (name, info) :: rest =>
    if truthyOptStr info.formula then
      let docPair := call_openai oracle s (doc_prompt (info.formula.getD ""))
        100
      let pyPair := call_openai oracle docPair.2
        (py_prompt (info.formula.getD "")) 100
      let restPair := generate_ai_outputs oracle pyPair.2 rest
      (OutputRow.mk name docPair.1 info.formula pyPair.1 :: restPair.1,
        restPair.2)
    else
      let restPair := generate_ai_outputs oracle s rest
      (OutputRow.mk name "No formula." info.formula "" :: restPair.1,
        restPair.2)

/-- The cell texts of one table row (src/app.py lines 114-119): Python calls
`.replace` on the documentation, Excel-formula and Python-formula values, so
a `None` Excel formula raises an attribute error. -/
def renderRowCells (row : OutputRow) : Except String String :=
  match row.excelFormula with
  | none => Except.error "AttributeError: NoneType has no attribute replace"
  | some ef =>
    Except.ok ("| " ++ String.intercalate " | "
      [row.namedReference, pyReplaceNewlines row.aiDocumentation,
        pyReplaceNewlines ef, pyReplaceNewlines row.pythonFormula] ++ " |\n")

/-- The row loop of `render_markdown_table`, accumulating the markdown text
and propagating the first raised error. -/
def renderRowsFrom (md : String) : List OutputRow → Except String String
  | [] => Except.ok md
  | row :: rest =>
    match renderRowCells row with
    | Except.error e => Except.error e
    | Except.ok line => renderRowsFrom (md ++ line) rest

/-- Model of `render_markdown_table` (src/app.py lines 109-120). -/
def render_markdown_table (rows : List OutputRow) : Except String String :=
  renderRowsFrom
    ("| " ++ String.intercalate " | "
        ["Named Reference", "AI Documentation", "Excel Formula",
          "Python Formula"] ++ " |\n"
      ++ "| " ++ String.intercalate " | " ["---", "---", "---", "---"]
      ++ " |\n")
    rows

/-- Concrete workbook for the C2 witness: one qualifying name with two
destinations (the second resolves to a formula cell), one external name,
one name without definition text. -/
def wbExtractWitness : Workbook :=
  { definedNames :=
      [ DefinedName.mk "Revenue" (some "S!$A$1") false
          [("S", "$A$1"), ("S", "$B$2")]
      , DefinedName.mk "Ext" (some "ext") true [("S", "$C$3")]
      , DefinedName.mk "Gap" none false [("S", "$D$4")] ]
    lookupCell := fun _ cref =>
      if cref == "$B$2" then Except.ok (Cell.mk "f" "=SUM(Sales)")
      else Except.error "missing" }

/-- Concrete workbook for the C4 witness: every cell lookup fails. -/
def wbFailWitness : Workbook :=
  { definedNames :=
      [ DefinedName.mk "Broken" (some "Bad!$Z$9") false [("Bad", "$Z$9")]
      , DefinedName.mk "Sales" (some "S!$B$1") false [("S", "$B$1")] ]
    lookupCell := fun _ _ => Except.error "worksheet does not exist" }

/-- Concrete workbook for the C5 witness: the lookup yields a formula cell
whose stored text keeps its leading equals marker. -/
def wbCellWitness : Workbook :=
  { definedNames := []
    lookupCell := fun _ _ => Except.ok (Cell.mk "f" "=A1+A2") }

/-! Lemmas about lookup in the mapped dependency dict. -/

/-- Looking a key up in the dict `find_dependencies` builds is looking it up
in the input dict and computing its dependency list. -/
theorem lookup_map_depsFor (refs : RefDict) (l : RefDict) (A : String) :
    (l.map (fun p => (p.1, depsFor refs p.1 p.2))).lookup A
      = (l.lookup A).map (fun info => depsFor refs A info) := by
  induction l with
  | nil => rfl
  | cons p rest ih =>
    obtain ⟨k, v⟩ := p
    cases h : A == k with
    | false => simp [List.lookup_cons, h, ih]
    | true =>
      have hA : A = k := beq_iff_eq.mp h
      subst hA
      simp [List.lookup_cons, h]

/-- C1: in `find_dependencies`, a name B is listed as a dependency of A
exactly when A's formula is present and non-empty, B is not A, and B's name
occurs case-insensitively inside A's formula text; consequently A never
depends on itself and a formula-less reference has no dependencies. -/
theorem find_dependencies_characterization
    (refs : RefDict) (A B : String) (info : NamedRef) (depsA : List String)
    (hA : refs.lookup A = some info)
    (hdeps : (find_dependencies refs).lookup A = some depsA)
    (hB : B ∈ refs.map Prod.fst) :
    (B ∈ depsA ↔ ∃ f, info.formula = some f ∧ f ≠ "" ∧ B ≠ A ∧
      pyContains (pyUpper f) (pyUpper B) = true)
    ∧ A ∉ depsA
    ∧ (info.formula = none → depsA = []) := by
  have hd : depsA = depsFor refs A info := by
    rw [find_dependencies, lookup_map_depsFor, hA] at hdeps
    exact (Option.some.injEq _ _ ▸ hdeps).symm
  subst hd
  refine ⟨?_, ?_, ?_⟩
  · unfold depsFor
    cases hf : info.formula with
    | none => simp
    | some f =>
      cases hfe : f == "" with
      | true =>
        have : f = "" := beq_iff_eq.mp hfe
        subst this
        simp
      | false =>
        have hfne : f ≠ "" := by
          intro hcon
          subst hcon
          simp at hfe
        simp only [hfe, Bool.false_eq_true, if_false, List.mem_filter,
          Bool.and_eq_true, bne_iff_ne]
        constructor
        · rintro ⟨_, hBA, hocc⟩
          exact ⟨f, rfl, hfne, hBA, hocc⟩
        · rintro ⟨f2, hf2, _, hBA, hocc⟩
          have : f2 = f := by
            have := hf2
            simp at this
            exact this.symm
          subst this
          exact ⟨hB, hBA, hocc⟩
  · unfold depsFor
    cases info.formula with
    | none => simp
    | some f =>
      cases hfe : f == "" with
      | true => simp [hfe]
      | false =>
        simp only [hfe, Bool.false_eq_true, if_false, List.mem_filter,
          Bool.and_eq_true, bne_iff_ne]
        rintro ⟨_, hAA, _⟩
        exact hAA rfl
  · intro hnone
    unfold depsFor
    rw [hnone]

/-- Witness for C1 on a concrete two-reference dict. -/
theorem find_dependencies_characterization_witness :
    (List.lookup "Revenue"
        [("Revenue", NamedRef.mk "S" "A1" (some "=SUM(Sales)")),
         ("Sales", NamedRef.mk "S" "B1" none)]
      = some (NamedRef.mk "S" "A1" (some "=SUM(Sales)"))
     ∧ (find_dependencies
          [("Revenue", NamedRef.mk "S" "A1" (some "=SUM(Sales)")),
           ("Sales", NamedRef.mk "S" "B1" none)]).lookup "Revenue"
        = some ["Sales"]
     ∧ "Sales" ∈
        ([("Revenue", NamedRef.mk "S" "A1" (some "=SUM(Sales)")),
          ("Sales", NamedRef.mk "S" "B1" none)] : RefDict).map Prod.fst)
    ∧ (("Sales" ∈ (["Sales"] : List String) ↔ ∃ f,
          (some "=SUM(Sales)" : Option String) = some f ∧ f ≠ ""
          ∧ "Sales" ≠ "Revenue"
          ∧ pyContains (pyUpper f) (pyUpper "Sales") = true)
       ∧ "Revenue" ∉ (["Sales"] : List String)
       ∧ ((some "=SUM(Sales)" : Option String) = none
            → (["Sales"] : List String) = [])) :=
  ⟨⟨by decide, by decide, by decide⟩,
    find_dependencies_characterization
      [("Revenue", NamedRef.mk "S" "A1" (some "=SUM(Sales)")),
       ("Sales", NamedRef.mk "S" "B1" none)]
      "Revenue" "Sales" (NamedRef.mk "S" "A1" (some "=SUM(Sales)")) ["Sales"]
      (by decide) (by decide) (by decide)⟩

/-- C10: every dependency list `find_dependencies` produces is free of
duplicates, because it is a filter over the distinct keys of the dict. -/
theorem find_dependencies_values_nodup (refs : RefDict) (A : String)
    (hnd : (refs.map Prod.fst).Nodup) :
    (((find_dependencies refs).lookup A).getD []).Nodup := by
  rw [find_dependencies, lookup_map_depsFor]
  cases h : refs.lookup A with
  | none => simp
  | some info =>
    simp only [Option.map_some', Option.getD_some]
    cases hf : info.formula with
    | none => simp [depsFor, hf]
    | some f =>
      cases hfe : f == "" with
      | true => simp [depsFor, hf, hfe]
      | false =>
        simp only [depsFor, hf, hfe, Bool.false_eq_true, if_false]
        exact hnd.filter _

/-- Witness for C10 on a concrete dict whose keys are distinct. -/
theorem find_dependencies_values_nodup_witness :
    (([("Revenue", NamedRef.mk "S" "A1" (some "=SUM(Sales)")),
       ("Sales", NamedRef.mk "S" "B1" none)] : RefDict).map Prod.fst).Nodup
    ∧ (((find_dependencies
          [("Revenue", NamedRef.mk "S" "A1" (some "=SUM(Sales)")),
           ("Sales", NamedRef.mk "S" "B1" none)]).lookup "Revenue").getD
        []).Nodup :=
  ⟨by decide,
    find_dependencies_values_nodup
      [("Revenue", NamedRef.mk "S" "A1" (some "=SUM(Sales)")),
       ("Sales", NamedRef.mk "S" "B1" none)]
      "Revenue" (by decide)⟩

/-! Lemmas for the graph builder. -/

/-- Every edge the builder emits points at a key of the dependency map. -/
theorem edge_snd_mem_keys (deps : List (String × List String))
    (D R : String)
    (h : (D, R) ∈ deps.flatMap (fun p => p.2.map (fun d => (d, p.1)))) :
    R ∈ deps.map Prod.fst := by
  rw [List.mem_flatMap] at h
  obtain ⟨p, hp, hmem⟩ := h
  rw [List.mem_map] at hmem
  obtain ⟨d, _, he⟩ := hmem
  have : p.1 = R := congrArg Prod.snd he
  exact List.mem_map.mpr ⟨p, hp, this⟩

/-- Counting a fixed pair inside the edges one entry emits: the dependent
component must match the entry's key, and then the occurrences of the
dependency are counted. -/
theorem count_pair_map_edges (ds : List String) (D R k : String) :
    ((ds.map (fun d => (d, k))).count (D, R))
      = if k = R then ds.count D else 0 := by
  induction ds with
  | nil => simp
  | cons a rest ih =>
    by_cases hk : k = R
    · subst hk
      simp only [List.map_cons, List.count_cons, ih, if_pos rfl,
        beq_iff_eq, Prod.mk.injEq]
      by_cases ha : a = D
      · simp [ha]
      · simp [ha]
    · simp only [List.map_cons, List.count_cons, ih, if_neg hk,
        beq_iff_eq, Prod.mk.injEq]
      simp [hk]

/-- Edge multiplicity in the built graph equals the multiplicity of the
dependency in the looked-up list, provided the keys are distinct. -/
theorem graph_edge_count (D R : String) :
    ∀ deps : List (String × List String), (deps.map Prod.fst).Nodup →
      ((deps.flatMap (fun p => p.2.map (fun d => (d, p.1)))).count (D, R))
        = (((deps.lookup R).getD []).count D) := by
  intro deps
  induction deps with
  | nil => simp
  | cons p rest ih =>
    intro hnd
    obtain ⟨k, ds⟩ := p
    have hnd2 : (rest.map Prod.fst).Nodup := (List.nodup_cons.mp hnd).2
    have hknotin : k ∉ rest.map Prod.fst := (List.nodup_cons.mp hnd).1
    rw [List.flatMap_cons, List.count_append, count_pair_map_edges]
    by_cases hk : k = R
    · subst hk
      have hzero :
          ((rest.flatMap (fun p => p.2.map (fun d => (d, p.1)))).count
            (D, k)) = 0 := by
        rw [List.count_eq_zero]
        intro hmem
        exact hknotin (edge_snd_mem_keys rest D k hmem)
      rw [hzero, if_pos rfl, List.lookup_cons]
      simp
    · have hbk : (R == k) = false := by
        rw [beq_eq_false_iff_ne]
        intro hcon
        exact hk hcon.symm
      rw [if_neg hk, List.lookup_cons]
      simp only [hbk]
      rw [ih hnd2]
      simp

/-- C3: the built graph has exactly one node per key of the dependency map
(keys with empty lists included), and the multiplicity of each edge (D, R)
equals the multiplicity of D in R's dependency list, duplicates preserved;
graph construction is a total function, so it never fails on duplicates. -/
theorem create_dependency_graph_spec (deps : List (String × List String))
    (hnd : (deps.map Prod.fst).Nodup) :
    (create_dependency_graph deps).nodes = deps.map Prod.fst
    ∧ ∀ D R, ((create_dependency_graph deps).edges.count (D, R))
        = (((deps.lookup R).getD []).count D) := by
  refine ⟨rfl, ?_⟩
  intro D R
  exact graph_edge_count D R deps hnd

/-- Witness for C3 on a concrete dependency map with a duplicate dependency
and a key with an empty list. -/
theorem create_dependency_graph_spec_witness :
    (([("Revenue", ["Sales", "Sales"]), ("Sales", [])]
        : List (String × List String)).map Prod.fst).Nodup
    ∧ ((create_dependency_graph
          [("Revenue", ["Sales", "Sales"]), ("Sales", [])]).nodes
        = ([("Revenue", ["Sales", "Sales"]), ("Sales", [])]
            : List (String × List String)).map Prod.fst
       ∧ ∀ D R, ((create_dependency_graph
            [("Revenue", ["Sales", "Sales"]), ("Sales", [])]).edges.count
              (D, R))
          = (((([("Revenue", ["Sales", "Sales"]), ("Sales", [])]
                : List (String × List String)).lookup R).getD []).count D)) :=
  ⟨by decide,
    create_dependency_graph_spec
      [("Revenue", ["Sales", "Sales"]), ("Sales", [])] (by decide)⟩

/-! Lemmas about the dict operations used by the extractor. -/

/-- Inserting a key makes it look up to the inserted value. -/
theorem lookup_dictInsert_self (k : String) (v : NamedRef) (d : RefDict) :
    (dictInsert k v d).lookup k = some v := by
  induction d with
  | nil => simp [dictInsert, List.lookup_cons]
  | cons p rest ih =>
    obtain ⟨k2, r2⟩ := p
    cases h : k2 == k with
    | true => simp [dictInsert, h, List.lookup_cons]
    | false =>
      have hne : ¬ (k == k2) = true := by
        intro hcon
        rw [beq_iff_eq] at hcon
        subst hcon
        simp at h
      simp [dictInsert, h, List.lookup_cons, hne, ih]

/-- Inserting one key leaves every other key's lookup unchanged. -/
theorem lookup_dictInsert_ne (k m : String) (v : NamedRef) (d : RefDict)
    (hne : m ≠ k) :
    (dictInsert k v d).lookup m = d.lookup m := by
  induction d with
  | nil =>
    have : ¬ (m == k) = true := fun hcon => hne (beq_iff_eq.mp hcon)
    simp [dictInsert, List.lookup_cons, this]
  | cons p rest ih =>
    obtain ⟨k2, r2⟩ := p
    cases h : k2 == k with
    | true =>
      have hk : k2 = k := beq_iff_eq.mp h
      subst hk
      have : ¬ (m == k2) = true := fun hcon => hne (beq_iff_eq.mp hcon)
      simp [dictInsert, h, List.lookup_cons, this]
    | false => simp [dictInsert, h, List.lookup_cons, ih]

/-- Setting the formula right after inserting a key is inserting the updated
record directly. -/
theorem dictSetFormula_dictInsert (k : String) (v : String) (r : NamedRef)
    (d : RefDict) :
    dictSetFormula k v (dictInsert k r d)
      = dictInsert k { r with formula := some v } d := by
  induction d with
  | nil => simp [dictInsert, dictSetFormula]
  | cons p rest ih =>
    obtain ⟨k2, r2⟩ := p
    cases h : k2 == k with
    | true => simp [dictInsert, dictSetFormula, h]
    | false => simp [dictInsert, dictSetFormula, h, ih]

/-- A destination step is exactly an overwrite with its net entry. -/
theorem processDest_eq_insert (wb : Workbook) (dname : String)
    (refs : RefDict) (dest : String × String) :
    processDest wb dname refs dest
      = dictInsert dname (destEntry wb dest) refs := by
  unfold processDest destEntry
  cases wb.lookupCell dest.1 (cellRefOf dest.2) with
  | error e => rfl
  | ok cell =>
    cases h : cell.dataType == "f" with
    | true => simp only [h, if_true, dictSetFormula_dictInsert]
    | false => simp [h]

/-- Keys after an overwrite: unchanged if the key was present, otherwise the
key is appended at the end. -/
theorem keys_dictInsert (k : String) (v : NamedRef) (d : RefDict) :
    (dictInsert k v d).map Prod.fst
      = if k ∈ d.map Prod.fst then d.map Prod.fst
        else d.map Prod.fst ++ [k] := by
  induction d with
  | nil => simp [dictInsert]
  | cons p rest ih =>
    obtain ⟨k2, r2⟩ := p
    cases h : k2 == k with
    | true =>
      have hk : k2 = k := beq_iff_eq.mp h
      subst hk
      simp [dictInsert, h]
    | false =>
      have hne : k2 ≠ k := by
        intro hcon
        subst hcon
        simp at h
      simp only [dictInsert, h, Bool.false_eq_true, if_false, List.map_cons,
        ih]
      by_cases hm : k ∈ rest.map Prod.fst
      · rw [if_pos hm, if_pos (List.mem_cons_of_mem _ hm)]
      · rw [if_neg hm, if_neg (by
          intro hcon
          rcases List.mem_cons.mp hcon with hEq | hIn
          · exact hne hEq.symm
          · exact hm hIn)]
        rfl

/-! Lemmas about the fold over one defined name's destinations. -/

/-- Folding destinations of one name never touches another name's entry. -/
theorem destFold_lookup_ne (wb : Workbook) (n m : String) (hne : m ≠ n) :
    ∀ (ds : List (String × String)) (refs : RefDict),
      ((ds.foldl (processDest wb n) refs).lookup m) = refs.lookup m := by
  intro ds
  induction ds with
  | nil => intro refs; rfl
  | cons d rest ih =>
    intro refs
    rw [List.foldl_cons, ih, processDest_eq_insert,
      lookup_dictInsert_ne _ _ _ _ hne]

/-- After folding a non-empty destination list, the name's entry is the net
entry of the last destination (last destination wins). -/
theorem destFold_lookup_last (wb : Workbook) (n : String) :
    ∀ (ds : List (String × String)) (refs : RefDict) (dl : String × String),
      ds.getLast? = some dl →
      ((ds.foldl (processDest wb n) refs).lookup n)
        = some (destEntry wb dl) := by
  intro ds
  induction ds with
  | nil => intro refs dl h; simp at h
  | cons d rest ih =>
    intro refs dl h
    cases rest with
    | nil =>
      have hdl : dl = d := by
        simp [List.getLast?] at h
        exact h.symm
      subst hdl
      rw [List.foldl_cons, List.foldl_nil, processDest_eq_insert,
        lookup_dictInsert_self]
    | cons d2 rest2 =>
      have h2 : (d2 :: rest2).getLast? = some dl := by
        rw [List.getLast?_cons_cons] at h
        exact h
      rw [List.foldl_cons]
      exact ih _ dl h2

/-- Keys after folding a destination list: unchanged for an empty list,
otherwise the name is present, appended at the end if it was new. -/
theorem destFold_keys (wb : Workbook) (n : String) :
    ∀ (ds : List (String × String)) (refs : RefDict),
      ((ds.foldl (processDest wb n) refs).map Prod.fst)
        = if ds = [] then refs.map Prod.fst
          else if n ∈ refs.map Prod.fst then refs.map Prod.fst
          else refs.map Prod.fst ++ [n] := by
  intro ds
  induction ds with
  | nil => intro refs; simp
  | cons d rest ih =>
    intro refs
    rw [List.foldl_cons, ih, processDest_eq_insert, keys_dictInsert]
    by_cases hm : n ∈ refs.map Prod.fst
    · rw [if_pos hm]
      by_cases h1 : rest = [] <;> simp [h1, hm]
    · rw [if_neg hm]
      have hof : n ∈ refs.map Prod.fst ++ [n] := by simp
      by_cases h1 : rest = [] <;> simp [h1, hm, hof]

/-! Lemmas about the fold over the defined-name table. -/

/-- Processing one defined name never touches an unrelated name's entry. -/
theorem processName_lookup_ne (wb : Workbook) (refs : RefDict)
    (dn : DefinedName) (m : String) (hne : m ≠ dn.name) :
    (processName wb refs dn).lookup m = refs.lookup m := by
  unfold processName
  by_cases hq : qualifies dn = true
  · simp only [hq, if_true]
    exact destFold_lookup_ne wb dn.name m hne dn.destinations refs
  · simp [hq]

/-- Membership in the keys after processing one defined name. -/
theorem processName_keys_mem (wb : Workbook) (refs : RefDict)
    (dn : DefinedName) (m : String) :
    (m ∈ (processName wb refs dn).map Prod.fst
      ↔ m ∈ refs.map Prod.fst
        ∨ (qualifies dn = true ∧ dn.destinations ≠ [] ∧ dn.name = m)) := by
  unfold processName
  by_cases hq : qualifies dn = true
  · rw [if_pos hq, destFold_keys]
    by_cases h1 : dn.destinations = []
    · simp [h1]
    · by_cases h2 : dn.name ∈ refs.map Prod.fst
      · rw [if_neg h1, if_pos h2]
        constructor
        · intro hm
          exact Or.inl hm
        · rintro (hm | ⟨_, _, hnm⟩)
          · exact hm
          · subst hnm
            exact h2
      · rw [if_neg h1, if_neg h2]
        rw [List.mem_append, List.mem_singleton]
        constructor
        · rintro (hm | hm)
          · exact Or.inl hm
          · exact Or.inr ⟨hq, h1, hm.symm⟩
        · rintro (hm | ⟨_, _, hnm⟩)
          · exact Or.inl hm
          · exact Or.inr hnm.symm
  · simp [hq]

/-- Processing one defined name keeps the keys duplicate-free. -/
theorem processName_keys_nodup (wb : Workbook) (refs : RefDict)
    (dn : DefinedName) (hnd : (refs.map Prod.fst).Nodup) :
    ((processName wb refs dn).map Prod.fst).Nodup := by
  unfold processName
  by_cases hq : qualifies dn = true
  · simp only [hq, if_true]
    rw [destFold_keys]
    by_cases h1 : dn.destinations = []
    · simp [h1, hnd]
    · by_cases h2 : dn.name ∈ refs.map Prod.fst
      · simp [h1, h2, hnd]
      · rw [if_neg h1, if_neg h2, List.nodup_append]
        refine ⟨hnd, List.nodup_singleton _, ?_⟩
        intro a ha hcon
        rw [List.mem_singleton] at hcon
        subst hcon
        exact h2 ha
  · simp [hq, hnd]

/-- Folding a run of defined names none of which carries a given name leaves
that name's entry untouched. -/
theorem nameFold_lookup_preserved (wb : Workbook) :
    ∀ (dns : List DefinedName) (refs : RefDict) (m : String),
      (∀ dn ∈ dns, dn.name ≠ m) →
      ((dns.foldl (processName wb) refs).lookup m) = refs.lookup m := by
  intro dns
  induction dns with
  | nil => intro refs m _; rfl
  | cons dn0 rest ih =>
    intro refs m hnames
    rw [List.foldl_cons,
      ih _ m (fun dn hdn => hnames dn (List.mem_cons_of_mem _ hdn)),
      processName_lookup_ne wb refs dn0 m
        (fun hcon => hnames dn0 (List.mem_cons_self _ _) hcon.symm)]

/-- Membership in the keys after folding the whole defined-name table. -/
theorem nameFold_keys_mem (wb : Workbook) :
    ∀ (dns : List DefinedName) (refs : RefDict) (m : String),
      (m ∈ (dns.foldl (processName wb) refs).map Prod.fst
        ↔ m ∈ refs.map Prod.fst
          ∨ ∃ dn ∈ dns, dn.name = m ∧ qualifies dn = true
              ∧ dn.destinations ≠ []) := by
  intro dns
  induction dns with
  | nil => intro refs m; simp
  | cons dn0 rest ih =>
    intro refs m
    rw [List.foldl_cons, ih, processName_keys_mem]
    constructor
    · rintro ((hm | ⟨hq, hne, hnm⟩) | ⟨dn, hdn, hnm, hq, hne⟩)
      · exact Or.inl hm
      · exact Or.inr ⟨dn0, List.mem_cons_self _ _, hnm, hq, hne⟩
      · exact Or.inr ⟨dn, List.mem_cons_of_mem _ hdn, hnm, hq, hne⟩
    · rintro (hm | ⟨dn, hdn, hnm, hq, hne⟩)
      · exact Or.inl (Or.inl hm)
      · rcases List.mem_cons.mp hdn with hEq | hIn
        · subst hEq
          exact Or.inl (Or.inr ⟨hq, hne, hnm⟩)
        · exact Or.inr ⟨dn, hIn, hnm, hq, hne⟩

/-- Folding the defined-name table keeps the keys duplicate-free. -/
theorem nameFold_keys_nodup (wb : Workbook) :
    ∀ (dns : List DefinedName) (refs : RefDict),
      (refs.map Prod.fst).Nodup →
      ((dns.foldl (processName wb) refs).map Prod.fst).Nodup := by
  intro dns
  induction dns with
  | nil => intro refs h; exact h
  | cons dn0 rest ih =>
    intro refs h
    rw [List.foldl_cons]
    exact ih _ (processName_keys_nodup wb refs dn0 h)

/-- For a qualifying defined name with distinct table names, the final entry
is the net entry of its last destination. -/
theorem nameFold_lookup_qual (wb : Workbook) :
    ∀ (dns : List DefinedName) (refs : RefDict) (dn : DefinedName)
      (dl : String × String),
      (dns.map DefinedName.name).Nodup →
      dn ∈ dns → qualifies dn = true →
      dn.destinations.getLast? = some dl →
      ((dns.foldl (processName wb) refs).lookup dn.name)
        = some (destEntry wb dl) := by
  intro dns
  induction dns with
  | nil => intro refs dn dl _ hmem; cases hmem
  | cons dn0 rest ih =>
    intro refs dn dl hnd hmem hq hlast
    rw [List.map_cons, List.nodup_cons] at hnd
    rcases List.mem_cons.mp hmem with hEq | hIn
    · subst hEq
      rw [List.foldl_cons]
      have hpres : ∀ dn2 ∈ rest, dn2.name ≠ dn.name := by
        intro dn2 hdn2 hcon
        exact hnd.1 (List.mem_map.mpr ⟨dn2, hdn2, hcon⟩)
      rw [nameFold_lookup_preserved wb rest _ dn.name hpres]
      unfold processName
      rw [if_pos hq]
      exact destFold_lookup_last wb dn.name dn.destinations refs dl hlast
    · rw [List.foldl_cons]
      exact ih _ dn dl hnd.2 hIn hq hlast

/-- C2: for a workbook with a well-formed defined-name table (distinct
names, and — per the glossary, a defined name is bound to one or more
destinations — at least one destination per qualifying name), extraction
produces exactly one entry per defined name that has definition text and is
not external, keyed by that name; external or text-less names never appear;
and the stored entry is the one the last-processed destination produced. -/
theorem extract_named_references_spec (wb : Workbook)
    (hnd : (wb.definedNames.map DefinedName.name).Nodup)
    (hne : ∀ dn ∈ wb.definedNames, qualifies dn = true →
      dn.destinations ≠ []) :
    (∀ m, m ∈ (extract_named_references wb).map Prod.fst
        ↔ ∃ dn ∈ wb.definedNames, dn.name = m ∧ qualifies dn = true)
    ∧ ((extract_named_references wb).map Prod.fst).Nodup
    ∧ (∀ dn ∈ wb.definedNames, qualifies dn = true →
        ∀ dl, dn.destinations.getLast? = some dl →
          (extract_named_references wb).lookup dn.name
            = some (destEntry wb dl)) := by
  refine ⟨?_, ?_, ?_⟩
  · intro m
    rw [extract_named_references, nameFold_keys_mem]
    constructor
    · rintro (hm | ⟨dn, hdn, hnm, hq, _⟩)
      · simp at hm
      · exact ⟨dn, hdn, hnm, hq⟩
    · rintro ⟨dn, hdn, hnm, hq⟩
      exact Or.inr ⟨dn, hdn, hnm, hq, hne dn hdn hq⟩
  · rw [extract_named_references]
    exact nameFold_keys_nodup wb wb.definedNames [] (by simp)
  · intro dn hdn hq dl hlast
    rw [extract_named_references]
    exact nameFold_lookup_qual wb wb.definedNames [] dn dl hnd hdn hq hlast


/-- Witness for C2: the entry for Revenue reflects its second (last)
destination, whose cell holds a formula. -/
theorem extract_named_references_spec_witness :
    ((wbExtractWitness.definedNames.map DefinedName.name).Nodup
     ∧ ∀ dn ∈ wbExtractWitness.definedNames, qualifies dn = true →
        dn.destinations ≠ [])
    ∧ (extract_named_references wbExtractWitness).lookup "Revenue"
        = some (NamedRef.mk "S" "$B$2" (some "=SUM(Sales)")) :=
  ⟨⟨by decide, by decide⟩, by
    have h := (extract_named_references_spec wbExtractWitness
        (by decide) (by decide)).2.2
      (DefinedName.mk "Revenue" (some "S!$A$1") false
        [("S", "$A$1"), ("S", "$B$2")])
      (by decide) (by decide) ("S", "$B$2") (by decide)
    rw [h]
    rfl⟩

/-- C4: a failing destination lookup is contained: the defined name's entry
is still present, with `formula = none` when the failing destination is the
one the entry reflects, and every other qualifying defined name still gets
its entry — a single malformed named range never aborts extraction. -/
theorem extract_destination_failure_contained (wb : Workbook)
    (hnd : (wb.definedNames.map DefinedName.name).Nodup)
    (dn : DefinedName) (hmem : dn ∈ wb.definedNames)
    (hq : qualifies dn = true)
    (d : String × String) (hd : d ∈ dn.destinations) (e : String)
    (hfail : wb.lookupCell d.1 (cellRefOf d.2) = Except.error e) :
    dn.name ∈ (extract_named_references wb).map Prod.fst
    ∧ (dn.destinations.getLast? = some d →
        (extract_named_references wb).lookup dn.name
          = some (NamedRef.mk d.1 d.2 none))
    ∧ (∀ dn2 ∈ wb.definedNames, qualifies dn2 = true →
        dn2.destinations ≠ [] →
        dn2.name ∈ (extract_named_references wb).map Prod.fst) := by
  have hdne : dn.destinations ≠ [] := by
    intro hcon
    rw [hcon] at hd
    cases hd
  refine ⟨?_, ?_, ?_⟩
  · rw [extract_named_references, nameFold_keys_mem]
    exact Or.inr ⟨dn, hmem, rfl, hq, hdne⟩
  · intro hlast
    have h := nameFold_lookup_qual wb wb.definedNames [] dn d hnd hmem hq
      hlast
    rw [extract_named_references, h]
    simp only [destEntry, hfail]
  · intro dn2 hdn2 hq2 hne2
    rw [extract_named_references, nameFold_keys_mem]
    exact Or.inr ⟨dn2, hdn2, rfl, hq2, hne2⟩


/-- Witness for C4: with an always-failing cell lookup, the broken name's
entry is present with no formula and the other name still gets an entry. -/
theorem extract_destination_failure_contained_witness :
    ((wbFailWitness.definedNames.map DefinedName.name).Nodup
     ∧ qualifies (DefinedName.mk "Broken" (some "Bad!$Z$9") false
          [("Bad", "$Z$9")]) = true
     ∧ wbFailWitness.lookupCell "Bad" (cellRefOf "$Z$9")
        = Except.error "worksheet does not exist")
    ∧ (extract_named_references wbFailWitness).lookup "Broken"
        = some (NamedRef.mk "Bad" "$Z$9" none)
    ∧ "Sales" ∈ (extract_named_references wbFailWitness).map Prod.fst := by
  have h := extract_destination_failure_contained wbFailWitness (by decide)
    (DefinedName.mk "Broken" (some "Bad!$Z$9") false [("Bad", "$Z$9")])
    (by decide) (by decide) ("Bad", "$Z$9") (by decide)
    "worksheet does not exist" rfl
  exact ⟨⟨by decide, by decide, rfl⟩, h.2.1 (by decide),
    h.2.2 (DefinedName.mk "Sales" (some "S!$B$1") false [("S", "$B$1")])
      (by decide) (by decide) (by decide)⟩

/-- C5: for a destination whose cell lookup succeeds, the entry written for
that destination has `formula = none` when the cell's stored type is not
`"f"`, and otherwise carries the cell's stored formula text unchanged
(leading `"="` marker included, since the value is stored as-is). -/
theorem processDest_formula_capture (wb : Workbook) (dname : String)
    (refs : RefDict) (s r : String) (cell : Cell)
    (hok : wb.lookupCell s (cellRefOf r) = Except.ok cell) :
    (cell.dataType ≠ "f" →
      (processDest wb dname refs (s, r)).lookup dname
        = some (NamedRef.mk s r none))
    ∧ (cell.dataType = "f" →
      (processDest wb dname refs (s, r)).lookup dname
        = some (NamedRef.mk s r (some cell.value))) := by
  have hbase : (processDest wb dname refs (s, r)).lookup dname
      = some (destEntry wb (s, r)) := by
    rw [processDest_eq_insert, lookup_dictInsert_self]
  constructor
  · intro hnf
    have hb : (cell.dataType == "f") = false := by
      rw [beq_eq_false_iff_ne]
      exact hnf
    rw [hbase]
    simp only [destEntry, hok, hb, Bool.false_eq_true, if_false]
  · intro hf
    have hb : (cell.dataType == "f") = true := beq_iff_eq.mpr hf
    rw [hbase]
    simp only [destEntry, hok, hb, if_true]


/-- Witness for C5: the captured formula is the stored text, marker and
all. -/
theorem processDest_formula_capture_witness :
    (wbCellWitness.lookupCell "S" (cellRefOf "$A$1")
      = Except.ok (Cell.mk "f" "=A1+A2"))
    ∧ (processDest wbCellWitness "Total" [] ("S", "$A$1")).lookup "Total"
        = some (NamedRef.mk "S" "$A$1" (some "=A1+A2")) :=
  ⟨rfl,
    (processDest_formula_capture wbCellWitness "Total" [] "S" "$A$1"
      (Cell.mk "f" "=A1+A2") rfl).2 rfl⟩


/-! Lemmas about the memoized service call. -/

/-- Appending a fresh key to a cache that lacks it makes it look up. -/
theorem cacheLookup_append_self (c : List ((String × Nat) × String))
    (k : String × Nat) (r : String) (h : c.lookup k = none) :
    (c ++ [(k, r)]).lookup k = some r := by
  induction c with
  | nil => simp [List.lookup_cons]
  | cons p rest ih =>
    obtain ⟨k2, r2⟩ := p
    rw [List.lookup_cons] at h
    cases hk : k == k2 with
    | true =>
      rw [hk] at h
      cases h
    | false =>
      rw [hk] at h
      rw [List.cons_append, List.lookup_cons, hk]
      exact ih h

/-- After any `call_openai` invocation, the result is cached under its
argument pair. -/
theorem call_openai_caches (oracle : Oracle) (s : AIState) (prompt : String)
    (mt : Nat) :
    ((call_openai oracle s prompt mt).2).cache.lookup (prompt, mt)
      = some (call_openai oracle s prompt mt).1 := by
  unfold call_openai
  cases h : s.cache.lookup (prompt, mt) with
  | some r => simp [h]
  | none =>
    cases ho : oracle.respond s.calls prompt with
    | ok text =>
      simp only [ho]
      exact cacheLookup_append_self s.cache (prompt, mt) (pyStrip text) h
    | error e =>
      simp only [ho]
      exact cacheLookup_append_self s.cache (prompt, mt)
        ("(Error: " ++ e ++ ")") h

/-- A cache hit returns the stored result and leaves the state unchanged. -/
theorem call_openai_hit (oracle : Oracle) (s : AIState) (prompt : String)
    (mt : Nat) (r : String) (h : s.cache.lookup (prompt, mt) = some r) :
    call_openai oracle s prompt mt = (r, s) := by
  unfold call_openai
  rw [h]

/-- C6: two invocations of the formula translator on the same formula
string yield identical output: the first invocation's result is memoized
under the (prompt, token-budget) key, so the repeat invocation returns the
same translated expression whatever the external service would answer. -/
theorem translate_formula_repeat_deterministic (oracle : Oracle)
    (s : AIState) (f : String) :
    (translate_formula oracle (translate_formula oracle s f).2 f).1
      = (translate_formula oracle s f).1 := by
  unfold translate_formula
  rw [call_openai_hit oracle (call_openai oracle s (py_prompt f) 100).2
    (py_prompt f) 100 (call_openai oracle s (py_prompt f) 100).1
    (call_openai_caches oracle s (py_prompt f) 100)]

/-! Lemmas and claims about the output table. -/

/-- Every reference yields exactly one row, in order, whatever the external
service does. -/
theorem generate_ai_outputs_names (oracle : Oracle) :
    ∀ (refs : RefDict) (s : AIState),
      ((generate_ai_outputs oracle s refs).1).map
        (fun row => row.namedReference) = refs.map Prod.fst := by
  intro refs
  induction refs with
  | nil => intro s; rfl
  | cons p rest ih =>
    intro s
    obtain ⟨name, info⟩ := p
    cases hb : truthyOptStr info.formula with
    | true => simp [generate_ai_outputs, hb, ih]
    | false => simp [generate_ai_outputs, hb, ih]

/-- Shared helper: a reference whose formula value is falsy (None or the
empty string) produces, at its own position, the fixed row with the "No
formula." documentation and the empty translated expression. -/
theorem generate_row_of_falsy (oracle : Oracle)
    (refs : RefDict) (s : AIState) (i : Nat) (name : String)
    (info : NamedRef)
    (hget : refs.get? i = some (name, info))
    (hfalsy : truthyOptStr info.formula = false) :
    ((generate_ai_outputs oracle s refs).1).get? i
      = some (OutputRow.mk name "No formula." info.formula "") := by
  induction refs generalizing s i with
  | nil => simp at hget
  | cons p rest ih =>
    obtain ⟨name0, info0⟩ := p
    cases i with
    | zero =>
      rw [List.get?_cons_zero] at hget
      have hp : name0 = name ∧ info0 = info := by
        have := Option.some.inj hget
        exact ⟨congrArg Prod.fst this, congrArg Prod.snd this⟩
      obtain ⟨hn, hi⟩ := hp
      subst hn
      subst hi
      simp [generate_ai_outputs, hfalsy]
    | succ n =>
      rw [List.get?_cons_succ] at hget
      cases hb : truthyOptStr info0.formula with
      | true =>
        simp only [generate_ai_outputs, hb, if_true, List.get?_cons_succ]
        exact ih _ n hget
      | false =>
        simp only [generate_ai_outputs, hb, Bool.false_eq_true, if_false,
          List.get?_cons_succ]
        exact ih _ n hget

/-- C7: a reference whose formula is absent (None) or empty produces the
row with the fixed "No formula." documentation and the empty translated
expression. -/
theorem generate_ai_outputs_empty_formula_row (oracle : Oracle)
    (refs : RefDict) (s : AIState) (i : Nat) (name : String)
    (info : NamedRef)
    (hget : refs.get? i = some (name, info))
    (hfalsy : truthyOptStr info.formula = false) :
    ((generate_ai_outputs oracle s refs).1).get? i
      = some (OutputRow.mk name "No formula." info.formula "") :=
  generate_row_of_falsy oracle refs s i name info hget hfalsy

/-- Witness for C7 on a one-reference dict whose formula is None. -/
theorem generate_ai_outputs_empty_formula_row_witness :
    (([("Const", NamedRef.mk "S" "$A$1" none)] : RefDict).get? 0
        = some ("Const", NamedRef.mk "S" "$A$1" none)
     ∧ truthyOptStr (NamedRef.mk "S" "$A$1" none).formula = false)
    ∧ ((generate_ai_outputs (Oracle.mk (fun _ _ => Except.error "unused"))
          (AIState.mk [] 0)
          [("Const", NamedRef.mk "S" "$A$1" none)]).1).get? 0
        = some (OutputRow.mk "Const" "No formula." none "") :=
  ⟨⟨by decide, by decide⟩,
    generate_ai_outputs_empty_formula_row
      (Oracle.mk (fun _ _ => Except.error "unused")) 
      [("Const", NamedRef.mk "S" "$A$1" none)] (AIState.mk [] 0) 0
      "Const" (NamedRef.mk "S" "$A$1" none) (by decide) (by decide)⟩

/-- C8: a failing or timed-out service call is recovered locally: the call
returns the explicit "(Error: ...)" placeholder instead of raising, every
reference still produces its table row, and the failing reference's
documentation cell holds exactly the placeholder string. -/
theorem call_openai_error_recovered (oracle : Oracle) (s : AIState)
    (prompt : String) (mt : Nat) (e : String)
    (hmiss : s.cache.lookup (prompt, mt) = none)
    (herr : oracle.respond s.calls prompt = Except.error e) :
    (call_openai oracle s prompt mt).1 = "(Error: " ++ e ++ ")"
    ∧ (∀ refs : RefDict,
        ((generate_ai_outputs oracle s refs).1).map
          (fun row => row.namedReference) = refs.map Prod.fst)
    ∧ (∀ (name sh rf f : String) (rest : RefDict), f ≠ "" →
        prompt = doc_prompt f → mt = 100 →
        ∃ row, ((generate_ai_outputs oracle s
            ((name, NamedRef.mk sh rf (some f)) :: rest)).1).get? 0
          = some row ∧ row.aiDocumentation = "(Error: " ++ e ++ ")") := by
  have hcall : (call_openai oracle s prompt mt).1
      = "(Error: " ++ e ++ ")" := by
    unfold call_openai
    rw [hmiss, herr]
  refine ⟨hcall, fun refs => generate_ai_outputs_names oracle refs s, ?_⟩
  intro name sh rf f rest hf hp hmt
  subst hp
  subst hmt
  have htr : truthyOptStr (NamedRef.mk sh rf (some f)).formula = true := by
    show (f != "") = true
    rw [bne_iff_ne]
    exact hf
  simp only [generate_ai_outputs, htr, if_true, List.get?_cons_zero]
  exact ⟨_, rfl, hcall⟩

/-- Witness for C8 with an always-failing collaborator on a fresh cache. -/
theorem call_openai_error_recovered_witness :
    ((AIState.mk [] 0).cache.lookup (doc_prompt "=1+1", 100) = none
     ∧ (Oracle.mk (fun _ _ => Except.error "timeout")).respond
          (AIState.mk [] 0).calls (doc_prompt "=1+1")
        = Except.error "timeout")
    ∧ (call_openai (Oracle.mk (fun _ _ => Except.error "timeout"))
          (AIState.mk [] 0) (doc_prompt "=1+1") 100).1
        = "(Error: " ++ "timeout" ++ ")"
    ∧ (∃ row, ((generate_ai_outputs
          (Oracle.mk (fun _ _ => Except.error "timeout")) (AIState.mk [] 0)
          [("A", NamedRef.mk "S" "$A$1" (some "=1+1"))]).1).get? 0
        = some row ∧ row.aiDocumentation = "(Error: " ++ "timeout" ++ ")") :=
  ⟨⟨rfl, rfl⟩,
    (call_openai_error_recovered
      (Oracle.mk (fun _ _ => Except.error "timeout")) (AIState.mk [] 0)
      (doc_prompt "=1+1") 100 "timeout" rfl rfl).1,
    (call_openai_error_recovered
      (Oracle.mk (fun _ _ => Except.error "timeout")) (AIState.mk [] 0)
      (doc_prompt "=1+1") 100 "timeout" rfl rfl).2.2
      "A" "S" "$A$1" "=1+1" [] (by decide) rfl rfl⟩

/-- A row whose Excel-formula value is None makes the row loop raise. -/
theorem renderRowsFrom_error_of_none :
    ∀ (rows : List OutputRow) (md : String) (row : OutputRow),
      row ∈ rows → row.excelFormula = none →
      ∃ e, renderRowsFrom md rows = Except.error e := by
  intro rows
  induction rows with
  | nil => intro md row h; cases h
  | cons r0 rest ih =>
    intro md row hmem hnone
    rcases List.mem_cons.mp hmem with hEq | hIn
    · subst hEq
      refine ⟨"AttributeError: NoneType has no attribute replace", ?_⟩
      unfold renderRowsFrom renderRowCells
      rw [hnone]
    · unfold renderRowsFrom
      cases hr : renderRowCells r0 with
      | error e2 => exact ⟨e2, rfl⟩
      | ok line => exact ih (md ++ line) row hIn hnone

/-- C9: a reference stored with `formula = None` flows through
`generate_ai_outputs` as a row whose Excel Formula field is None (not a
string: the lookup's empty-string default never fires because the key is
present), and rendering such a table raises instead of returning it. -/
theorem none_formula_row_breaks_render (oracle : Oracle) (s : AIState)
    (refs : RefDict) (i : Nat) (name : String) (info : NamedRef)
    (hget : refs.get? i = some (name, info))
    (hnone : info.formula = none) :
    ((generate_ai_outputs oracle s refs).1).get? i
      = some (OutputRow.mk name "No formula." none "")
    ∧ ∃ e, render_markdown_table ((generate_ai_outputs oracle s refs).1)
        = Except.error e := by
  have hfalsy : truthyOptStr info.formula = false := by
    rw [hnone]
    rfl
  have h1 := generate_row_of_falsy oracle refs s i name info
    hget hfalsy
  rw [hnone] at h1
  refine ⟨h1, ?_⟩
  have hmem : OutputRow.mk name "No formula." none ""
      ∈ (generate_ai_outputs oracle s refs).1 := by
    exact List.get?_mem h1
  exact renderRowsFrom_error_of_none _ _ _ hmem rfl

/-- Witness for C9 on a one-reference dict stored with no formula. -/
theorem none_formula_row_breaks_render_witness :
    (([("Sales", NamedRef.mk "S" "$B$1" none)] : RefDict).get? 0
        = some ("Sales", NamedRef.mk "S" "$B$1" none)
     ∧ (NamedRef.mk "S" "$B$1" none).formula = none)
    ∧ ((generate_ai_outputs (Oracle.mk (fun _ _ => Except.error "unused"))
          (AIState.mk [] 0) [("Sales", NamedRef.mk "S" "$B$1" none)]).1).get?
        0 = some (OutputRow.mk "Sales" "No formula." none "")
    ∧ ∃ e, render_markdown_table
        ((generate_ai_outputs (Oracle.mk (fun _ _ => Except.error "unused"))
          (AIState.mk [] 0) [("Sales", NamedRef.mk "S" "$B$1" none)]).1)
        = Except.error e :=
  ⟨⟨by decide, rfl⟩,
    (none_formula_row_breaks_render
      (Oracle.mk (fun _ _ => Except.error "unused")) (AIState.mk [] 0)
      [("Sales", NamedRef.mk "S" "$B$1" none)] 0 "Sales"
      (NamedRef.mk "S" "$B$1" none) (by decide) rfl).1,
    (none_formula_row_breaks_render
      (Oracle.mk (fun _ _ => Except.error "unused")) (AIState.mk [] 0)
      [("Sales", NamedRef.mk "S" "$B$1" none)] 0 "Sales"
      (NamedRef.mk "S" "$B$1" none) (by decide) rfl).2⟩
